import Mathlib

/-!
Verification of the SpeedScanPro repository (src/main.py, src/utils/api_client.py).

The program manipulates parsed JSON documents (Python objects produced by
`response.json()`), so the embedding works over a deep JSON value type.
Python `None` is `Json.null`; JSON numbers are modelled as exact rationals.
Dictionary lookups, `in`-tests and `.get` calls are modelled together with the
exceptions (`KeyError`, `TypeError`, `AttributeError`) that the corresponding
Python operations raise on ill-typed operands, since `_fetch_metrics` routes
those exceptions through its `except` chain.  Whitespace and digit character
classes are the ASCII ones (all inputs considered here are ASCII).
-/

inductive Json where
  | null : Json
  | bool : Bool → Json
  | num : ℚ → Json
  | str : String → Json
  | arr : List Json → Json
  | obj : List (String × Json) → Json

/-- First-match lookup in an association list (Python dicts have unique keys). -/
def lookupList : List (String × Json) → String → Option Json
  | [], _ => none
  | (k, v) :: rest, key => if k = key then some v else lookupList rest key

/-- Pure field access on a JSON value: `some` only for objects holding the key. -/
def Json.getKey : Json → String → Option Json
  | .obj kvs, key => lookupList kvs key
  | _, _ => none

/-- Whether a JSON value is a string. -/
def Json.isStr : Json → Bool
  | .str _ => true
  | _ => false

/-- Python `x is None`. -/
def Json.isNull : Json → Bool
  | .null => true
  | _ => false

/-- The exceptions the modelled Python code can raise, with their `str(e)` text. -/
inductive PyErr where
  | keyError : String → PyErr
  | typeError : String → PyErr
  | attributeError : String → PyErr
  | exception : String → PyErr

/-- A single quote character (Python wraps KeyError arguments in quotes). -/
def pyQuote : String := String.singleton (Char.ofNat 39)

/-- `str(e)` for a modelled exception. `str(KeyError(k))` is the quoted key. -/
def pyStr : PyErr → String
  | .keyError k => pyQuote ++ k ++ pyQuote
  | .typeError m => m
  | .attributeError m => m
  | .exception m => m

def isKeyError : PyErr → Bool
  | .keyError _ => true
  | _ => false

/-- Whether `needle` is an initial segment of `hay`. -/
def startsWithSeq : List Char → List Char → Bool
  | _, [] => true
  | [], _ :: _ => false
  | c :: cs, n :: ns => c == n && startsWithSeq cs ns

/-- Whether `needle` occurs contiguously in the second list. -/
def containsSeq (needle : List Char) : List Char → Bool
  | [] => startsWithSeq [] needle
  | c :: cs => startsWithSeq (c :: cs) needle || containsSeq needle cs

/-- Python substring test `needle in hay`. -/
def strContains (hay needle : String) : Bool := containsSeq needle.toList hay.toList

/-- Python membership test `key in j` for a string key: key lookup on dicts,
element equality on lists, substring test on strings, `TypeError` otherwise. -/
def pyIn (key : String) : Json → Except PyErr Bool
  | .obj kvs => .ok (lookupList kvs key).isSome
  | .arr xs => .ok (xs.any fun j => match j with | .str s => s = key | _ => false)
  | .str s => .ok (strContains s key)
  | .null => .error (.typeError "argument of type NoneType is not iterable")
  | .bool _ => .error (.typeError "argument of type bool is not iterable")
  | .num _ => .error (.typeError "argument of type float is not iterable")

/-- Python subscript `j[key]` with a string key. -/
def pyGetItem (j : Json) (key : String) : Except PyErr Json :=
  match j with
  | .obj kvs =>
      match lookupList kvs key with
      | some v => .ok v
      | none => .error (.keyError key)
  | .str _ => .error (.typeError "string indices must be integers")
  | .arr _ => .error (.typeError "list indices must be integers or slices, not str")
  | .null => .error (.typeError "NoneType object is not subscriptable")
  | .bool _ => .error (.typeError "bool object is not subscriptable")
  | .num _ => .error (.typeError "float object is not subscriptable")

/-- Python `j.get(key, default)`: only dicts have a `get` method. -/
def pyGet (j : Json) (key : String) (default : Json) : Except PyErr Json :=
  match j with
  | .obj kvs => .ok ((lookupList kvs key).getD default)
  | _ => .error (.attributeError "object has no attribute get")

/-! ## The response normalizer (`PageSpeedInsightsAPI._fetch_metrics`)

The transport part of `_fetch_metrics` (the `requests.get` call, status-code
handling and `response.json()`) is outside the model: `data` below is the
already-parsed JSON body of a 2xx response.  The `print` diagnostics of the
category loop are modelled as a returned list of the category names warned
about. -/

/-- The `category_keys` table of `_fetch_metrics` (prioritized key variants). -/
def categoryKeyVariants : List (String × List String) :=
  [("performance", ["performance"]),
   ("accessibility", ["accessibility"]),
   ("best-practices", ["best-practices", "bestPractices"]),
   ("seo", ["seo"])]

/-- The `required_audits` list of `_fetch_metrics`. -/
def requiredAudits : List String :=
  ["first-contentful-paint", "interactive", "largest-contentful-paint",
   "cumulative-layout-shift", "total-blocking-time", "server-response-time",
   "interaction-to-next-paint"]

/-- Python `str.capitalize`: first character upper-cased, the rest lower-cased. -/
def pyCapitalize (w : String) : String :=
  match w.toList with
  | [] => ""
  | c :: cs => String.mk (c.toUpper :: cs.map Char.toLower)

/-- `our_key.replace(chr(95), chr(45))` of the fallback branch. -/
def kebabOf (s : String) : String := s.replace "_" "-"

/-- The camel-case variant built in the fallback branch: words split on the
dash, every word after the first capitalized, joined without separator. -/
def camelOf (s : String) : String :=
  match s.splitOn "-" with
  | [] => ""
  | w :: ws => w ++ String.join (ws.map pyCapitalize)

/-- Safe score extraction of the primary category branch (lines 63-74):
`None` entry gives no score, a dict with a `score` key gives that value,
anything else no score; a missing or `None` score becomes `0`. -/
def primaryScore (categoryData : Json) : Json :=
  let score : Json :=
    match categoryData with
    | .obj kvs => (lookupList kvs "score").getD Json.null
    | _ => Json.null
  if score.isNull then Json.num 0 else score

/-- Score extraction of the kebab/camel fallback branch (lines 84-95):
`category_data.get` with default `0` on dicts, `0` otherwise, and a `None`
score becomes `0`. -/
def fallbackScore (categoryData : Json) : Json :=
  let score : Json :=
    match categoryData with
    | .obj kvs => (lookupList kvs "score").getD (Json.num 0)
    | _ => Json.num 0
  if score.isNull then Json.num 0 else score

/-- The `for api_key in possible_keys` loop: the first variant present in
`categories` yields its entry. -/
def findFirstKey (categories : Json) : List String → Except PyErr (Option Json)
  | [] => .ok none
  | k :: rest =>
      match pyIn k categories with
      | .error e => .error e
      | .ok true =>
          match pyGetItem categories k with
          | .error e => .error e
          | .ok v => .ok (some v)
      | .ok false => findFirstKey categories rest

/-- One iteration of the category loop of `_fetch_metrics` for `our_key`:
the produced `{score: ...}` entry and whether the missing-category warning
was printed. -/
def processOneCategory (categories : Json) (ourKey : String)
    (possible : List String) : Except PyErr (Json × Bool) :=
  match findFirstKey categories possible with
  | .error e => .error e
  | .ok (some categoryData) =>
      .ok (Json.obj [("score", primaryScore categoryData)], false)
  | .ok none =>
      match pyIn (kebabOf ourKey) categories with
      | .error e => .error e
      | .ok true =>
          match pyGetItem categories (kebabOf ourKey) with
          | .error e => .error e
          | .ok categoryData =>
              .ok (Json.obj [("score", fallbackScore categoryData)], false)
      | .ok false =>
          match pyIn (camelOf ourKey) categories with
          | .error e => .error e
          | .ok true =>
              match pyGetItem categories (camelOf ourKey) with
              | .error e => .error e
              | .ok categoryData =>
                  .ok (Json.obj [("score", fallbackScore categoryData)], false)
          | .ok false => .ok (Json.obj [("score", Json.num 0)], true)

/-- The whole category loop, in table order; collects the entries of
`result` and the names of the warned-about categories. -/
def processCategories (categories : Json) :
    List (String × List String) → Except PyErr (List (String × Json) × List String)
  | [] => .ok ([], [])
  | (ourKey, possible) :: rest =>
      match processOneCategory categories ourKey possible with
      | .error e => .error e
      | .ok (entry, warned) =>
          match processCategories categories rest with
          | .error e => .error e
          | .ok (entries, warns) =>
              .ok ((ourKey, entry) :: entries,
                   (if warned then [ourKey] else []) ++ warns)

/-- The audit entry built from a present, non-`None` `audits[audit_key]`
(lines 118-121): `displayValue` defaults to the string, a missing or `None`
score becomes `0`. -/
def auditEntryOfData (auditData : Json) : Except PyErr Json :=
  match pyGet auditData "displayValue" (Json.str "N/A") with
  | .error e => .error e
  | .ok dv =>
      match pyGet auditData "score" Json.null with
      | .error e => .error e
      | .ok s =>
          if s.isNull then .ok (Json.obj [("displayValue", dv), ("score", Json.num 0)])
          else .ok (Json.obj [("displayValue", dv), ("score", s)])

/-- The default audit entry used when upstream data is missing. -/
def defaultAuditEntry : Json :=
  Json.obj [("displayValue", Json.str "N/A"), ("score", Json.num 0)]

/-- The `for audit_key in required_audits` loop of `_fetch_metrics`. -/
def processAudits (audits : Json) : List String → Except PyErr (List (String × Json))
  | [] => .ok []
  | auditKey :: rest =>
      match pyIn auditKey audits with
      | .error e => .error e
      | .ok true =>
          match pyGetItem audits auditKey with
          | .error e => .error e
          | .ok auditData =>
              if auditData.isNull then
                match processAudits audits rest with
                | .error e => .error e
                | .ok entries => .ok ((auditKey, defaultAuditEntry) :: entries)
              else
                match auditEntryOfData auditData with
                | .error e => .error e
                | .ok entry =>
                    match processAudits audits rest with
                    | .error e => .error e
                    | .ok entries => .ok ((auditKey, entry) :: entries)
      | .ok false =>
          match processAudits audits rest with
          | .error e => .error e
          | .ok entries => .ok ((auditKey, defaultAuditEntry) :: entries)

/-- Assembles the `result` dict of `_fetch_metrics` from the two loops. -/
def resultJson (catKvs auditKvs : List (String × Json)) : Json :=
  Json.obj [("lighthouse_result",
    Json.obj [("categories", Json.obj catKvs), ("audits", Json.obj auditKvs)])]

/-- Lines 41-128 of `_fetch_metrics` after the `lighthouseResult` check:
extract `categories`, run the category loop, fetch `audits` with default
`{}`, run the audit loop, assemble the result. -/
def normalizeLighthouse (lh : Json) : Except PyErr (Json × List String) :=
  match pyGetItem lh "categories" with
  | .error e => .error e
  | .ok categories =>
      match processCategories categories categoryKeyVariants with
      | .error e => .error e
      | .ok (catKvs, warns) =>
          match pyGet lh "audits" (Json.obj []) with
          | .error e => .error e
          | .ok audits =>
              match processAudits audits requiredAudits with
              | .error e => .error e
              | .ok auditKvs => .ok (resultJson catKvs auditKvs, warns)

/-- The `try` block of `_fetch_metrics` on a parsed 2xx body: reject a body
without `lighthouseResult`, then normalize. -/
def fetchMetricsTry (data : Json) : Except PyErr (Json × List String) :=
  match pyIn "lighthouseResult" data with
  | .error e => .error e
  | .ok false => .error (.exception "Invalid API response: No lighthouse results found")
  | .ok true =>
      match pyGetItem data "lighthouseResult" with
      | .error e => .error e
      | .ok lh => normalizeLighthouse lh

/-- The all-default result built by the score-error fallback (lines 148-161). -/
def defaultResultJson : Json :=
  Json.obj [("lighthouse_result",
    Json.obj [("categories", Json.obj [
        ("performance", Json.obj [("score", Json.num 0)]),
        ("accessibility", Json.obj [("score", Json.num 0)]),
        ("best-practices", Json.obj [("score", Json.num 0)]),
        ("seo", Json.obj [("score", Json.num 0)])]),
      ("audits", Json.obj (requiredAudits.map fun a => (a, defaultAuditEntry)))])]

/-- The `except` chain of `_fetch_metrics` below the transport handlers: a
`KeyError` is re-raised as an invalid-format error; any other exception whose
message mentions a score yields the all-default result, the rest re-raise. -/
def handleFetchError (e : PyErr) : Except String (Json × List String) :=
  match e with
  | .keyError k => .error ("Invalid API response format: " ++ pyStr (.keyError k))
  | _ =>
      if strContains (pyStr e) "score" then .ok (defaultResultJson, [])
      else .error ("An error occurred: " ++ pyStr e)

/-- `_fetch_metrics` on a parsed 2xx body: the `try` block with its handlers. -/
def fetchMetrics (data : Json) : Except String (Json × List String) :=
  match fetchMetricsTry data with
  | .ok res => .ok res
  | .error e => handleFetchError e

/-- `get_metrics` delegates to the cached `_fetch_metrics`. -/
def get_metrics (data : Json) : Except String (Json × List String) := fetchMetrics data

/-- The `score` recorded for category `k` of a normalized result. -/
def categoryScoreOf (res : Json) (k : String) : Option Json := do
  let lr ← res.getKey "lighthouse_result"
  let cats ← lr.getKey "categories"
  let cat ← cats.getKey k
  cat.getKey "score"

/-- The audit entry recorded for audit `a` of a normalized result. -/
def auditEntryOf (res : Json) (a : String) : Option Json := do
  let lr ← res.getKey "lighthouse_result"
  let audits ← lr.getKey "audits"
  audits.getKey a

/-- The `displayValue` recorded for audit `a` of a normalized result. -/
def auditDisplayValueOf (res : Json) (a : String) : Option Json := do
  let entry ← auditEntryOf res a
  entry.getKey "displayValue"

/-- The audits value of `lighthouseResult` is structurally sound: absent, or a
dict whose entries are dicts or `None` (the shapes the audit loop reads
without raising). -/
def auditValWF : Json → Bool
  | .null => true
  | .obj _ => true
  | _ => false

def auditsWF : Option Json → Bool
  | none => true
  | some (.obj kvs) => kvs.all fun p => auditValWF p.2
  | some _ => false

/-! ## The URL validator (`validate_url` in src/main.py)

The compiled regular expression is embedded as a small nondeterministic
pattern type with list-of-remainders semantics: `matchPat p cs` is the list
of suffixes left over by the possible matches of `p` at the front of `cs`,
so a regex match exists exactly when an accepted remainder is produced.
Unbounded `+` repetitions are unrolled to at most `length` repetitions of the
repeated piece, which is complete because each repetition of the pieces
involved consumes at least one character.  `re.IGNORECASE` is reflected in
the character predicates, and the `$` anchor accepts a match that stops at
the end of the input or just before a final newline. -/

inductive Pat where
  | eps : Pat
  | chrP : (Char → Bool) → Pat
  | seqP : Pat → Pat → Pat
  | altP : Pat → Pat → Pat

/-- All suffixes that a match of `p` at the front of the input can leave. -/
def matchPat : Pat → List Char → List (List Char)
  | .eps, s => [s]
  | .chrP _, [] => []
  | .chrP p, c :: rest => if p c then [rest] else []
  | .seqP a b, s => (matchPat a s).flatMap fun r => matchPat b r
  | .altP a b, s => matchPat a s ++ matchPat b s

/-- `p?` -/
def optP (a : Pat) : Pat := .altP a .eps

/-- `p{0,n}` -/
def upTo (a : Pat) : Nat → Pat
  | 0 => .eps
  | n + 1 => .altP (.seqP a (upTo a n)) .eps

/-- `p+`, unrolled to at most `fuel + 1` repetitions. -/
def plusP (a : Pat) (fuel : Nat) : Pat := .seqP a (upTo a fuel)

/-- A case-sensitive literal. -/
def litP (s : String) : Pat :=
  s.toList.foldr (fun c acc => .seqP (.chrP fun d => d == c) acc) .eps

/-- A case-insensitive literal (the pattern is compiled with `re.IGNORECASE`). -/
def litIgnoreCase (s : String) : Pat :=
  s.toList.foldr (fun c acc => .seqP (.chrP fun d => d.toLower == c.toLower) acc) .eps

/-- `[A-Z0-9]` under `re.IGNORECASE`. -/
def isHostChar (c : Char) : Bool := c.isAlpha || c.isDigit

/-- `[A-Z0-9-]` under `re.IGNORECASE`. -/
def isHostDashChar (c : Char) : Bool := c.isAlpha || c.isDigit || c == '-'

/-- `[A-Z]` under `re.IGNORECASE`. -/
def isLetterChar (c : Char) : Bool := c.isAlpha

/-- `\d` (ASCII). -/
def isDigitChar (c : Char) : Bool := c.isDigit

/-- `\s` (ASCII whitespace). -/
def isSpaceChar (c : Char) : Bool :=
  c == ' ' || c == '\t' || c == '\n' || c == '\r' || c == '\x0b' || c == '\x0c'

/-- `\S` (ASCII). -/
def isNonSpaceChar (c : Char) : Bool := !(isSpaceChar c)

/-- `https?://` -/
def schemePat : Pat :=
  .seqP (litIgnoreCase "http")
    (.seqP (optP (.chrP fun c => c.toLower == 's')) (litP "://"))

/-- One hostname label: `[A-Z0-9](?:[A-Z0-9-]{0,61}[A-Z0-9])?\.` -/
def labelPat : Pat :=
  .seqP (.chrP isHostChar)
    (.seqP (optP (.seqP (upTo (.chrP isHostDashChar) 61) (.chrP isHostChar)))
      (.chrP fun c => c == '.'))

/-- `[A-Z]{2,6}` -/
def tldPat : Pat :=
  .seqP (.chrP isLetterChar) (.seqP (.chrP isLetterChar) (upTo (.chrP isLetterChar) 4))

/-- `(?:label)+[A-Z]{2,6}\.?` -/
def hostnamePat (fuel : Nat) : Pat :=
  .seqP (plusP labelPat fuel) (.seqP tldPat (optP (.chrP fun c => c == '.')))

/-- `\d{1,3}` -/
def ipPartPat : Pat := .seqP (.chrP isDigitChar) (upTo (.chrP isDigitChar) 2)

def dotPat : Pat := .chrP fun c => c == '.'

/-- `\d{1,3}\.\d{1,3}\.\d{1,3}\.\d{1,3}` -/
def ipPat : Pat :=
  .seqP ipPartPat (.seqP dotPat (.seqP ipPartPat
    (.seqP dotPat (.seqP ipPartPat (.seqP dotPat ipPartPat)))))

/-- `(?::\d+)?` -/
def portPat (fuel : Nat) : Pat :=
  optP (.seqP (.chrP fun c => c == ':') (plusP (.chrP isDigitChar) fuel))

/-- `(?:/?|[/?]\S+)` -/
def tailPat (fuel : Nat) : Pat :=
  .altP (optP (.chrP fun c => c == '/'))
    (.seqP (.chrP fun c => c == '/' || c == '?') (plusP (.chrP isNonSpaceChar) fuel))

/-- The whole compiled pattern of `validate_url`. -/
def urlPat (fuel : Nat) : Pat :=
  .seqP schemePat
    (.seqP (.altP (hostnamePat fuel) (.altP (litIgnoreCase "localhost") ipPat))
      (.seqP (portPat fuel) (tailPat fuel)))

/-- `validate_url`: `bool(pattern.match(url))`.  A match is anchored at the
start; the final `$` accepts the end of the string or the position just
before a terminating newline. -/
def validate_url (url : String) : Bool :=
  let cs := url.toList
  (matchPat (urlPat cs.length) cs).any fun rem => rem.isEmpty || rem == ['\n']


/-! ## Batch records and the exporter (src/main.py)

`analyze_url` builds one dict per URL holding the two normalized results;
`export_results` serializes a list of them.  The textual layer of the JSON
export (`json.dumps` / `json.loads` of the standard library, mutually
inverse) is modelled at the JSON value level; the CSV/Excel export is
modelled by its grid of cells (header row and one row of rendered values per
record), which is the content `df.to_csv` writes out. -/

/-- The per-URL dict built by `analyze_url`. -/
structure AnalysisRecord where
  url : String
  desktop : Json
  mobile : Json

def analysisRecordToJson (r : AnalysisRecord) : Json :=
  Json.obj [("url", Json.str r.url), ("desktop", r.desktop), ("mobile", r.mobile)]

/-- `json.dumps(results, indent=2)`, at the JSON value level. -/
def export_json (results : List AnalysisRecord) : Json :=
  Json.arr (results.map analysisRecordToJson)

/-- Reading one exported record back from its JSON form. -/
def parseAnalysisRecord (j : Json) : Option AnalysisRecord :=
  match j.getKey "url", j.getKey "desktop", j.getKey "mobile" with
  | some (.str u), some d, some m => some ⟨u, d, m⟩
  | _, _, _ => none

/-- Reading an exported batch back from its JSON form. -/
def parseBatch (j : Json) : Option (List AnalysisRecord) :=
  match j with
  | .arr xs => xs.mapM parseAnalysisRecord
  | _ => none

/-- A rendered CSV cell: a string or a number. -/
inductive Cell where
  | str : String → Cell
  | num : ℚ → Cell

/-- The lookup chain of `get_score` inside `export_results`:
`data[lighthouse_result][categories][category][score]`.  Its failures are
all `KeyError` or `TypeError`, exactly the types the `except` clause catches. -/
def scoreLookup (data : Json) (category : String) : Except PyErr Json :=
  match pyGetItem data "lighthouse_result" with
  | .error e => .error e
  | .ok lr =>
      match pyGetItem lr "categories" with
      | .error e => .error e
      | .ok cats =>
          match pyGetItem cats category with
          | .error e => .error e
          | .ok cat => pyGetItem cat "score"

/-- `get_score` of `export_results`: `N/A` when the lookup raises or the score
is `None`, `score*100` for a positive score, `0` otherwise.  A Python bool
compares and multiplies as `0`/`1`; comparing any other non-number with `0`
raises a `TypeError`, which the same `except` clause turns into `N/A`. -/
def get_score (data : Json) (category : String) : Cell :=
  match scoreLookup data category with
  | .error _ => .str "N/A"
  | .ok score =>
      match score with
      | .null => .str "N/A"
      | .num q => if 0 < q then .num (q * 100) else .num 0
      | .bool b => if b then .num 100 else .num 0
      | _ => .str "N/A"

/-- The CSV header of `export_results`. -/
def csvColumns : List String :=
  ["URL", "Desktop Performance", "Desktop Accessibility", "Desktop Best Practices",
   "Desktop SEO", "Mobile Performance", "Mobile Accessibility",
   "Mobile Best Practices", "Mobile SEO"]

/-- One flattened row of `export_results`. -/
def flattenRecord (r : AnalysisRecord) : List Cell :=
  [Cell.str r.url,
   get_score r.desktop "performance", get_score r.desktop "accessibility",
   get_score r.desktop "best-practices", get_score r.desktop "seo",
   get_score r.mobile "performance", get_score r.mobile "accessibility",
   get_score r.mobile "best-practices", get_score r.mobile "seo"]

/-- The grid `df.to_csv(index=False)` writes: the header row followed by one
row per record. -/
def export_csv (results : List AnalysisRecord) : List (List Cell) :=
  (csvColumns.map Cell.str) :: results.map flattenRecord

/-! ## Lemmas about the normalizer -/

theorem pyGetItem_ok {j v : Json} {k : String} (h : pyGetItem j k = .ok v) :
    ∃ kvs, j = Json.obj kvs ∧ lookupList kvs k = some v := by
  cases j with
  | obj kvs =>
      refine ⟨kvs, rfl, ?_⟩
      rcases hl : lookupList kvs k with _ | w
      · simp [pyGetItem, hl] at h
      · simp [pyGetItem, hl] at h
        simp [h]
  | null => simp [pyGetItem] at h
  | bool b => simp [pyGetItem] at h
  | num q => simp [pyGetItem] at h
  | str s => simp [pyGetItem] at h
  | arr xs => simp [pyGetItem] at h

theorem findFirstKey_obj_ok (kvs : List (String × Json)) :
    ∀ ks, ∃ o, findFirstKey (Json.obj kvs) ks = .ok o := by
  intro ks
  induction ks with
  | nil => exact ⟨none, rfl⟩
  | cons k rest ih =>
      rcases hl : lookupList kvs k with _ | v
      · obtain ⟨o, ho⟩ := ih
        exact ⟨o, by simp [findFirstKey, pyIn, hl, ho]⟩
      · exact ⟨some v, by simp [findFirstKey, pyIn, hl, pyGetItem]⟩

theorem findFirstKey_found (kvs : List (String × Json)) (k : String) (rest : List String)
    (entry : Json) (h : lookupList kvs k = some entry) :
    findFirstKey (Json.obj kvs) (k :: rest) = .ok (some entry) := by
  simp [findFirstKey, pyIn, h, pyGetItem]

theorem processOneCategory_obj_ok (kvs : List (String × Json)) (k : String)
    (ps : List String) : ∃ e w, processOneCategory (Json.obj kvs) k ps = .ok (e, w) := by
  obtain ⟨o, ho⟩ := findFirstKey_obj_ok kvs ps
  cases o with
  | some cd =>
      exact ⟨Json.obj [("score", primaryScore cd)], false, by simp [processOneCategory, ho]⟩
  | none =>
      rcases h1 : lookupList kvs (kebabOf k) with _ | v1
      · rcases h2 : lookupList kvs (camelOf k) with _ | v2
        · exact ⟨Json.obj [("score", Json.num 0)], true,
            by simp [processOneCategory, ho, pyIn, h1, h2]⟩
        · exact ⟨Json.obj [("score", fallbackScore v2)], false,
            by simp [processOneCategory, ho, pyIn, h1, h2, pyGetItem]⟩
      · exact ⟨Json.obj [("score", fallbackScore v1)], false,
          by simp [processOneCategory, ho, pyIn, h1, pyGetItem]⟩

theorem processOneCategory_found (kvs : List (String × Json)) (k : String)
    (rest : List String) (entry : Json) (h : lookupList kvs k = some entry) :
    processOneCategory (Json.obj kvs) k (k :: rest) =
      .ok (Json.obj [("score", primaryScore entry)], false) := by
  simp [processOneCategory, findFirstKey_found kvs k rest entry h]

theorem processOneCategory_shape {cats : Json} {k : String} {ps : List String}
    {e : Json} {w : Bool} (h : processOneCategory cats k ps = .ok (e, w)) :
    ∃ s, e = Json.obj [("score", s)] := by
  unfold processOneCategory at h
  repeat' split at h
  all_goals simp_all
  all_goals exact ⟨_, h.1.symm⟩

theorem processCategories_obj_ok (kvs : List (String × Json)) :
    ∀ ks, ∃ out w, processCategories (Json.obj kvs) ks = .ok (out, w) := by
  intro ks
  induction ks with
  | nil => exact ⟨[], [], rfl⟩
  | cons p rest ih =>
      obtain ⟨k, ps⟩ := p
      obtain ⟨e, warned, he⟩ := processOneCategory_obj_ok kvs k ps
      obtain ⟨out, w, hw⟩ := ih
      exact ⟨(k, e) :: out, (if warned then [k] else []) ++ w,
        by simp [processCategories, he, hw]⟩

theorem processCategories_fst {cats : Json} :
    ∀ {ks : List (String × List String)} {out : List (String × Json)} {w : List String},
      processCategories cats ks = .ok (out, w) → out.map Prod.fst = ks.map Prod.fst := by
  intro ks
  induction ks with
  | nil => intro out w h; simp [processCategories] at h; simp [h.1.symm]
  | cons p rest ih =>
      intro out w h
      obtain ⟨k, ps⟩ := p
      simp only [processCategories] at h
      rcases h1 : processOneCategory cats k ps with e0 | ⟨e, warned⟩ <;> rw [h1] at h
      · simp at h
      · rcases h2 : processCategories cats rest with e0 | ⟨entries, warns⟩ <;> rw [h2] at h
        · simp at h
        · simp at h
          rw [← h.1]
          simp [ih h2]

theorem processCategories_warns_sub {cats : Json} :
    ∀ {ks : List (String × List String)} {out : List (String × Json)} {w : List String},
      processCategories cats ks = .ok (out, w) → ∀ x ∈ w, x ∈ ks.map Prod.fst := by
  intro ks
  induction ks with
  | nil => intro out w h; simp [processCategories] at h; simp [h.2.symm]
  | cons p rest ih =>
      intro out w h
      obtain ⟨k, ps⟩ := p
      simp only [processCategories] at h
      rcases h1 : processOneCategory cats k ps with e0 | ⟨e, warned⟩ <;> rw [h1] at h
      · simp at h
      · rcases h2 : processCategories cats rest with e0 | ⟨entries, warns⟩ <;> rw [h2] at h
        · simp at h
        · simp at h
          intro x hx
          rw [← h.2] at hx
          rcases List.mem_append.mp hx with hx | hx
          · rcases warned with _ | _ <;> simp_all
          · exact List.mem_cons_of_mem _ (ih h2 x hx)

theorem processCategories_shape {cats : Json} :
    ∀ {ks : List (String × List String)} {out : List (String × Json)} {w : List String},
      processCategories cats ks = .ok (out, w) →
      ∀ p ∈ out, ∃ s, p.2 = Json.obj [("score", s)] := by
  intro ks
  induction ks with
  | nil =>
      intro out w h
      simp [processCategories] at h
      obtain ⟨h1, _⟩ := h
      subst h1
      intro p hp
      simp at hp
  | cons p rest ih =>
      intro out w h
      obtain ⟨k, ps⟩ := p
      simp only [processCategories] at h
      rcases h1 : processOneCategory cats k ps with e0 | ⟨e, warned⟩ <;> rw [h1] at h
      · simp at h
      · rcases h2 : processCategories cats rest with e0 | ⟨entries, warns⟩ <;> rw [h2] at h
        · simp at h
        · simp at h
          intro q hq
          rw [← h.1] at hq
          rcases List.mem_cons.mp hq with hq | hq
          · subst hq; exact processOneCategory_shape h1
          · exact ih h2 q hq

theorem processCategories_at {cats : Json} :
    ∀ {ks : List (String × List String)} {out : List (String × Json)} {w : List String}
      {k : String} {ps : List String} {e : Json} {warned : Bool},
      processCategories cats ks = .ok (out, w) → (ks.map Prod.fst).Nodup →
      (k, ps) ∈ ks → processOneCategory cats k ps = .ok (e, warned) →
      lookupList out k = some e ∧ (warned = false → k ∉ w) := by
  intro ks
  induction ks with
  | nil => intro out w k ps e warned h _ hmem; simp at hmem
  | cons hd rest ih =>
      intro out w k ps e warned h hnd hmem hone
      obtain ⟨k0, ps0⟩ := hd
      simp only [List.map_cons] at hnd
      obtain ⟨hnotin, hnd2⟩ := List.nodup_cons.mp hnd
      simp only [processCategories] at h
      rcases h1 : processOneCategory cats k0 ps0 with e0 | ⟨e1, w1⟩ <;> rw [h1] at h
      · simp at h
      · rcases h2 : processCategories cats rest with e0 | ⟨entries, warns⟩ <;> rw [h2] at h
        · simp at h
        · simp at h
          obtain ⟨hout, hw⟩ := h
          rcases List.mem_cons.mp hmem with heq | hmem2
          · simp at heq
            obtain ⟨hk, hps⟩ := heq
            subst hk; subst hps
            rw [hone] at h1
            have hpair := Except.ok.inj h1
            simp at hpair
            obtain ⟨he, hwn⟩ := hpair
            subst he; subst hwn
            rw [← hout, ← hw]
            constructor
            · simp [lookupList]
            · intro hwf
              subst hwf
              simp
              intro hx
              exact hnotin (processCategories_warns_sub h2 k hx)
          · have hkin : k ∈ rest.map Prod.fst := List.mem_map.mpr ⟨(k, ps), hmem2, rfl⟩
            have hk0 : ¬ (k0 = k) := fun hc => hnotin (hc ▸ hkin)
            obtain ⟨hl, hwrest⟩ := ih h2 hnd2 hmem2 hone
            rw [← hout, ← hw]
            constructor
            · simp [lookupList, hk0, hl]
            · intro hwf
              intro hkw
              rcases List.mem_append.mp hkw with hx | hx
              · rcases w1 with _ | _ <;> simp_all
              · exact hwrest hwf hx

theorem processAudits_fst {audits : Json} :
    ∀ {ks : List String} {out : List (String × Json)},
      processAudits audits ks = .ok out → out.map Prod.fst = ks := by
  intro ks
  induction ks with
  | nil => intro out h; simp [processAudits] at h; simp [h.symm]
  | cons k rest ih =>
      intro out h
      rcases hin : pyIn k audits with e0 | b
      · simp [processAudits, hin] at h
      · rcases b with _ | _
        · rcases h2 : processAudits audits rest with e0 | entries <;>
            simp [processAudits, hin, h2] at h
          rw [← h]; simp [ih h2]
        · rcases hgi : pyGetItem audits k with e0 | ad
          · simp [processAudits, hin, hgi] at h
          · by_cases hn : ad.isNull
            · rcases h2 : processAudits audits rest with e0 | entries <;>
                simp [processAudits, hin, hgi, hn, h2] at h
              rw [← h]; simp [ih h2]
            · rcases hae : auditEntryOfData ad with e0 | entry
              · simp [processAudits, hin, hgi, hn, hae] at h
              · rcases h2 : processAudits audits rest with e0 | entries <;>
                  simp [processAudits, hin, hgi, hn, hae, h2] at h
                rw [← h]; simp [ih h2]

theorem auditEntryOfData_shape {ad entry : Json} (h : auditEntryOfData ad = .ok entry) :
    ∃ dv s, entry = Json.obj [("displayValue", dv), ("score", s)] := by
  unfold auditEntryOfData at h
  repeat' split at h
  all_goals simp_all
  all_goals exact ⟨_, _, h.symm⟩

theorem processAudits_shape {audits : Json} :
    ∀ {ks : List String} {out : List (String × Json)},
      processAudits audits ks = .ok out →
      ∀ p ∈ out, ∃ dv s, p.2 = Json.obj [("displayValue", dv), ("score", s)] := by
  intro ks
  induction ks with
  | nil =>
      intro out h
      simp [processAudits] at h
      subst h
      intro p hp; simp at hp
  | cons k rest ih =>
      intro out h
      rcases hin : pyIn k audits with e0 | b
      · simp [processAudits, hin] at h
      · rcases b with _ | _
        · rcases h2 : processAudits audits rest with e0 | entries <;>
            simp [processAudits, hin, h2] at h
          rw [← h]
          intro p hp
          rcases List.mem_cons.mp hp with hp | hp
          · subst hp; exact ⟨Json.str "N/A", Json.num 0, rfl⟩
          · exact ih h2 p hp
        · rcases hgi : pyGetItem audits k with e0 | ad
          · simp [processAudits, hin, hgi] at h
          · by_cases hn : ad.isNull
            · rcases h2 : processAudits audits rest with e0 | entries <;>
                simp [processAudits, hin, hgi, hn, h2] at h
              rw [← h]
              intro p hp
              rcases List.mem_cons.mp hp with hp | hp
              · subst hp; exact ⟨Json.str "N/A", Json.num 0, rfl⟩
              · exact ih h2 p hp
            · rcases hae : auditEntryOfData ad with e0 | entry
              · simp [processAudits, hin, hgi, hn, hae] at h
              · rcases h2 : processAudits audits rest with e0 | entries <;>
                  simp [processAudits, hin, hgi, hn, hae, h2] at h
                rw [← h]
                intro p hp
                rcases List.mem_cons.mp hp with hp | hp
                · subst hp; exact auditEntryOfData_shape hae
                · exact ih h2 p hp

theorem processAudits_emptyObj :
    ∀ ks, processAudits (Json.obj []) ks = .ok (ks.map fun a => (a, defaultAuditEntry)) := by
  intro ks
  induction ks with
  | nil => rfl
  | cons k rest ih => simp [processAudits, pyIn, lookupList, ih]

theorem lookupList_mem {kvs : List (String × Json)} {k : String} {v : Json}
    (hl : lookupList kvs k = some v) : (k, v) ∈ kvs := by
  induction kvs with
  | nil => simp [lookupList] at hl
  | cons p rest ih =>
      obtain ⟨k2, v2⟩ := p
      by_cases hk : k2 = k
      · subst hk
        simp [lookupList] at hl
        simp [hl]
      · simp [lookupList, hk] at hl
        exact List.mem_cons_of_mem _ (ih hl)

theorem auditEntryOfData_obj_ok (kvs2 : List (String × Json)) :
    ∃ entry, auditEntryOfData (Json.obj kvs2) = .ok entry := by
  by_cases hs : ((lookupList kvs2 "score").getD Json.null).isNull
  · exact ⟨Json.obj [("displayValue", (lookupList kvs2 "displayValue").getD (Json.str "N/A")),
      ("score", Json.num 0)], by simp [auditEntryOfData, pyGet, hs]⟩
  · exact ⟨Json.obj [("displayValue", (lookupList kvs2 "displayValue").getD (Json.str "N/A")),
      ("score", (lookupList kvs2 "score").getD Json.null)],
      by simp [auditEntryOfData, pyGet, hs]⟩

theorem processAudits_wf_ok {akvs : List (String × Json)}
    (hwf : auditsWF (some (Json.obj akvs)) = true) :
    ∀ ks, ∃ out, processAudits (Json.obj akvs) ks = .ok out := by
  intro ks
  induction ks with
  | nil => exact ⟨[], rfl⟩
  | cons k rest ih =>
      obtain ⟨out, hout⟩ := ih
      rcases hl : lookupList akvs k with _ | v
      · exact ⟨(k, defaultAuditEntry) :: out, by simp [processAudits, pyIn, hl, hout]⟩
      · have hv : auditValWF v = true := by
          simp [auditsWF, List.all_eq_true] at hwf
          exact hwf k v (lookupList_mem hl)
        by_cases hn : v.isNull
        · exact ⟨(k, defaultAuditEntry) :: out,
            by simp [processAudits, pyIn, hl, pyGetItem, hn, hout]⟩
        · have hobj : ∃ kvs2, v = Json.obj kvs2 := by
            rcases v with _ | b2 | q | s | xs | kvs2 <;>
              simp [auditValWF] at hv <;> simp [Json.isNull] at hn
            · exact ⟨kvs2, rfl⟩
          obtain ⟨kvs2, hveq⟩ := hobj
          subst hveq
          obtain ⟨entry, hentry⟩ := auditEntryOfData_obj_ok kvs2
          exact ⟨(k, entry) :: out,
            by simp [processAudits, pyIn, hl, pyGetItem, hn, hentry, hout]⟩

theorem fetchMetricsTry_eq {data lhv : Json}
    (h : pyGetItem data "lighthouseResult" = .ok lhv) :
    fetchMetricsTry data = normalizeLighthouse lhv := by
  obtain ⟨kvs, hdata, hl⟩ := pyGetItem_ok h
  subst hdata
  simp [fetchMetricsTry, pyIn, hl, pyGetItem]

theorem normalizeLighthouse_ok {lhKvs ckvs : List (String × Json)}
    (hcat : lookupList lhKvs "categories" = some (Json.obj ckvs))
    (haud : auditsWF (lookupList lhKvs "audits") = true) :
    ∃ catKvs warns auditKvs,
      processCategories (Json.obj ckvs) categoryKeyVariants = .ok (catKvs, warns) ∧
      processAudits ((lookupList lhKvs "audits").getD (Json.obj [])) requiredAudits
        = .ok auditKvs ∧
      normalizeLighthouse (Json.obj lhKvs) = .ok (resultJson catKvs auditKvs, warns) := by
  obtain ⟨catKvs, warns, hc⟩ := processCategories_obj_ok ckvs categoryKeyVariants
  rcases ha : lookupList lhKvs "audits" with _ | av
  · refine ⟨catKvs, warns, _, hc, processAudits_emptyObj requiredAudits, ?_⟩
    simp [normalizeLighthouse, pyGetItem, hcat, hc, pyGet, ha, processAudits_emptyObj]
  · rw [ha] at haud
    rcases av with _ | b2 | q | s | xs | akvs
    · simp [auditsWF] at haud
    · simp [auditsWF] at haud
    · simp [auditsWF] at haud
    · simp [auditsWF] at haud
    · simp [auditsWF] at haud
    · obtain ⟨auditKvs, hak⟩ := processAudits_wf_ok haud requiredAudits
      refine ⟨catKvs, warns, auditKvs, hc, by simpa using hak, ?_⟩
      simp [normalizeLighthouse, pyGetItem, hcat, hc, pyGet, ha, hak]

theorem categoryScoreOf_resultJson (catKvs auditKvs : List (String × Json)) (k : String) :
    categoryScoreOf (resultJson catKvs auditKvs) k =
      (lookupList catKvs k).bind fun c => c.getKey "score" := by
  simp [categoryScoreOf, resultJson, Json.getKey, lookupList, Option.bind]

theorem auditEntryOf_resultJson (catKvs auditKvs : List (String × Json)) (a : String) :
    auditEntryOf (resultJson catKvs auditKvs) a = lookupList auditKvs a := by
  have hne : ¬ (("categories" : String) = "audits") := by decide
  simp [auditEntryOf, resultJson, Json.getKey, lookupList, hne]

/-! ## Lemmas about the pattern matcher -/

theorem mem_matchPat_seq {a b : Pat} {s rem : List Char} :
    rem ∈ matchPat (.seqP a b) s ↔ ∃ t, t ∈ matchPat a s ∧ rem ∈ matchPat b t := by
  simp [matchPat, List.mem_flatMap]

theorem mem_matchPat_alt {a b : Pat} {s rem : List Char} :
    rem ∈ matchPat (.altP a b) s ↔ rem ∈ matchPat a s ∨ rem ∈ matchPat b s := by
  simp [matchPat]

/-- A possible remainder extends on the right: matching only inspects the
consumed prefix. -/
theorem matchPat_append (p : Pat) :
    ∀ (xs ys rem : List Char), rem ∈ matchPat p xs → rem ++ ys ∈ matchPat p (xs ++ ys) := by
  induction p with
  | eps =>
      intro xs ys rem h
      simp [matchPat] at h
      simp [matchPat, h]
  | chrP f =>
      intro xs ys rem h
      cases xs with
      | nil => simp [matchPat] at h
      | cons c t =>
          simp [matchPat] at h ⊢
          rcases h with ⟨hf, hr⟩
          exact ⟨hf, by simp [hr]⟩
  | seqP a b iha ihb =>
      intro xs ys rem h
      rcases mem_matchPat_seq.mp h with ⟨t, ht, hr⟩
      exact mem_matchPat_seq.mpr ⟨t ++ ys, iha xs ys t ht, ihb t ys rem hr⟩
  | altP a b iha ihb =>
      intro xs ys rem h
      rcases mem_matchPat_alt.mp h with h | h
      · exact mem_matchPat_alt.mpr (Or.inl (iha xs ys rem h))
      · exact mem_matchPat_alt.mpr (Or.inr (ihb xs ys rem h))

theorem upTo_self_mem (a : Pat) : ∀ (n : Nat) (s : List Char), s ∈ matchPat (upTo a n) s := by
  intro n s
  cases n with
  | zero => simp [upTo, matchPat]
  | succ m => exact mem_matchPat_alt.mpr (Or.inr (by simp [matchPat]))

theorem upTo_mono (a : Pat) :
    ∀ (n m : Nat), n ≤ m → ∀ (s rem : List Char),
      rem ∈ matchPat (upTo a n) s → rem ∈ matchPat (upTo a m) s := by
  intro n
  induction n with
  | zero =>
      intro m _ s rem h
      simp [upTo, matchPat] at h
      rw [h]
      exact upTo_self_mem a m s
  | succ k ih =>
      intro m hm s rem h
      cases m with
      | zero => omega
      | succ m2 =>
          simp only [upTo] at h ⊢
          rcases mem_matchPat_alt.mp h with h | h
          · rcases mem_matchPat_seq.mp h with ⟨t, ht, hr⟩
            exact mem_matchPat_alt.mpr
              (Or.inl (mem_matchPat_seq.mpr ⟨t, ht, ih m2 (by omega) t rem hr⟩))
          · exact mem_matchPat_alt.mpr (Or.inr h)

/-- Pointwise inclusion of match results lifts through `seqP`. -/
theorem seq_sub {a a2 b b2 : Pat}
    (ha : ∀ s rem, rem ∈ matchPat a s → rem ∈ matchPat a2 s)
    (hb : ∀ s rem, rem ∈ matchPat b s → rem ∈ matchPat b2 s) :
    ∀ s rem, rem ∈ matchPat (.seqP a b) s → rem ∈ matchPat (.seqP a2 b2) s := by
  intro s rem h
  rcases mem_matchPat_seq.mp h with ⟨t, ht, hr⟩
  exact mem_matchPat_seq.mpr ⟨t, ha s t ht, hb t rem hr⟩

/-- Pointwise inclusion of match results lifts through `altP`. -/
theorem alt_sub {a a2 b b2 : Pat}
    (ha : ∀ s rem, rem ∈ matchPat a s → rem ∈ matchPat a2 s)
    (hb : ∀ s rem, rem ∈ matchPat b s → rem ∈ matchPat b2 s) :
    ∀ s rem, rem ∈ matchPat (.altP a b) s → rem ∈ matchPat (.altP a2 b2) s := by
  intro s rem h
  rcases mem_matchPat_alt.mp h with h | h
  · exact mem_matchPat_alt.mpr (Or.inl (ha s rem h))
  · exact mem_matchPat_alt.mpr (Or.inr (hb s rem h))

theorem self_sub (a : Pat) : ∀ s rem, rem ∈ matchPat a s → rem ∈ matchPat a s :=
  fun _ _ h => h

theorem plusP_mono {a : Pat} {n m : Nat} (hnm : n ≤ m) :
    ∀ s rem, rem ∈ matchPat (plusP a n) s → rem ∈ matchPat (plusP a m) s := by
  unfold plusP
  exact seq_sub (self_sub a) (fun s rem h => upTo_mono a n m hnm s rem h)

/-- The compiled URL pattern only grows with its repetition bound. -/
theorem urlPat_mono {n m : Nat} (hnm : n ≤ m) :
    ∀ s rem, rem ∈ matchPat (urlPat n) s → rem ∈ matchPat (urlPat m) s := by
  unfold urlPat hostnamePat portPat tailPat optP
  exact seq_sub (self_sub _)
    (seq_sub
      (alt_sub (seq_sub (plusP_mono hnm) (self_sub _))
        (self_sub _))
      (seq_sub
        (alt_sub (seq_sub (self_sub _) (plusP_mono hnm)) (self_sub _))
        (alt_sub (self_sub _) (seq_sub (self_sub _) (plusP_mono hnm)))))

/-- Every possible remainder is a suffix of the input. -/
theorem matchPat_suffix (p : Pat) :
    ∀ (s rem : List Char), rem ∈ matchPat p s → ∃ pre, s = pre ++ rem := by
  induction p with
  | eps =>
      intro s rem h
      simp [matchPat] at h
      exact ⟨[], by simp [h]⟩
  | chrP f =>
      intro s rem h
      cases s with
      | nil => simp [matchPat] at h
      | cons c t =>
          simp [matchPat] at h
          exact ⟨[c], by simp [h.2]⟩
  | seqP a b iha ihb =>
      intro s rem h
      rcases mem_matchPat_seq.mp h with ⟨t, ht, hr⟩
      obtain ⟨p1, hp1⟩ := iha s t ht
      obtain ⟨p2, hp2⟩ := ihb t rem hr
      exact ⟨p1 ++ p2, by simp [hp1, hp2]⟩
  | altP a b iha ihb =>
      intro s rem h
      rcases mem_matchPat_alt.mp h with h | h
      · exact iha s rem h
      · exact ihb s rem h

theorem stringToList_append (s t : String) : (s ++ t).toList = s.toList ++ t.toList := by
  cases s with
  | mk a =>
      cases t with
      | mk b => rfl

/-! ## C7 and C10: the URL validator -/

/-- C7: the URL validator returns true for the inputs https://example.com and
http://192.168.1.1:8080/path, and false for ftp://x.com and for the string
not a url. -/
theorem validate_url_examples :
    validate_url "https://example.com" = true ∧
    validate_url "http://192.168.1.1:8080/path" = true ∧
    validate_url "ftp://x.com" = false ∧
    validate_url "not a url" = false :=
  ⟨by decide, by decide, by decide, by decide⟩

/-- C10 counterexample: the validator accepts https://example.com with one
trailing newline, yet rejects the same accepted string with a further newline
appended; so appending a trailing newline does not preserve acceptance for
every accepted string, contrary to the claim as stated. -/
theorem validate_url_newline_cex :
    validate_url "https://example.com\n" = true ∧
    validate_url "https://example.com\n\n" = false :=
  ⟨by decide, by decide⟩

/-- C10 (amended): there is an input containing a newline that the validator
accepts, and for every accepted string that does not already end in a newline
the validator also accepts that string followed by a single trailing newline,
because the regex end anchor also matches just before a final newline. -/
theorem validate_url_trailing_newline :
    validate_url "https://example.com\n" = true ∧
    ∀ s : String, s.toList.getLast? ≠ some '\n' → validate_url s = true →
      validate_url (s ++ "\n") = true := by
  refine ⟨by decide, ?_⟩
  intro s hlast h
  unfold validate_url at h ⊢
  rw [List.any_eq_true] at h
  obtain ⟨rem, hmem, hcond⟩ := h
  have hrem : rem = [] ∨ rem = ['\n'] := by
    rcases (Bool.or_eq_true _ _).mp hcond with hc | hc
    · exact Or.inl (by simpa using hc)
    · exact Or.inr (by simpa using hc)
  rcases hrem with hrem | hrem
  · subst hrem
    have h2 := matchPat_append (urlPat s.toList.length) s.toList ['\n'] [] hmem
    have h3 : (['\n'] : List Char) ∈
        matchPat (urlPat s.toList.length) (s.toList ++ ['\n']) := by simpa using h2
    have h4 := urlPat_mono (Nat.le_succ s.toList.length) (s.toList ++ ['\n']) ['\n'] h3
    have hsl : (s ++ "\n").toList = s.toList ++ ['\n'] := by
      rw [stringToList_append]; rfl
    rw [List.any_eq_true]
    refine ⟨['\n'], ?_, by simp⟩
    rw [hsl]
    have hlen : (s.toList ++ ['\n']).length = s.toList.length + 1 := by simp
    rw [hlen]
    exact h4
  · exfalso
    apply hlast
    obtain ⟨pre, hpre⟩ := matchPat_suffix _ _ _ hmem
    rw [hrem] at hpre
    rw [hpre]
    exact List.getLast?_concat pre

/-- C10 witness: the amended statement applied to http://localhost. -/
theorem validate_url_trailing_newline_witness :
    validate_url "http://localhost\n" = true := by
  have h := validate_url_trailing_newline.2 "http://localhost" (by decide) (by decide)
  simpa using h

theorem fetchMetricsTry_ok_inv {data res : Json} {w : List String}
    (h : fetchMetricsTry data = .ok (res, w)) :
    ∃ cats audits catKvs auditKvs,
      processCategories cats categoryKeyVariants = .ok (catKvs, w) ∧
      processAudits audits requiredAudits = .ok auditKvs ∧
      res = resultJson catKvs auditKvs := by
  unfold fetchMetricsTry at h
  rcases h1 : pyIn "lighthouseResult" data with e0 | b
  · simp [h1] at h
  · rcases b with _ | _
    · simp [h1] at h
    · simp only [h1] at h
      rcases h2 : pyGetItem data "lighthouseResult" with e0 | lh
      · simp [h2] at h
      · simp only [h2] at h
        unfold normalizeLighthouse at h
        rcases h3 : pyGetItem lh "categories" with e0 | cats
        · simp [h3] at h
        · simp only [h3] at h
          rcases h4 : processCategories cats categoryKeyVariants with e0 | p
          · simp [h4] at h
          · obtain ⟨catKvs, warns⟩ := p
            simp only [h4] at h
            rcases h5 : pyGet lh "audits" (Json.obj []) with e0 | audits
            · simp [h5] at h
            · simp only [h5] at h
              rcases h6 : processAudits audits requiredAudits with e0 | auditKvs
              · simp [h6] at h
              · simp only [h6] at h
                simp at h
                obtain ⟨hres, hw⟩ := h
                subst hw
                exact ⟨cats, audits, catKvs, auditKvs, h4, h6, hres.symm⟩

theorem handleFetchError_ok_inv {e : PyErr} {res : Json} {w : List String}
    (h : handleFetchError e = .ok (res, w)) :
    res = defaultResultJson ∧ w = [] ∧ isKeyError e = false ∧
      strContains (pyStr e) "score" = true := by
  unfold handleFetchError at h
  rcases e with k | m | m | m
  · simp at h
  all_goals {
    by_cases hs : strContains m "score" = true
    · simp [pyStr, hs] at h
      refine ⟨?_, ?_, rfl, by simpa [pyStr] using hs⟩ <;> simp_all
    · simp [pyStr, hs] at h }

theorem defaultResultJson_shape :
    ∃ ckvs akvs,
      defaultResultJson = resultJson ckvs akvs ∧
      ckvs.map Prod.fst = ["performance", "accessibility", "best-practices", "seo"] ∧
      (∀ p ∈ ckvs, ∃ s, p.2 = Json.obj [("score", s)]) ∧
      akvs.map Prod.fst = requiredAudits ∧
      (∀ p ∈ akvs, ∃ dv s, p.2 = Json.obj [("displayValue", dv), ("score", s)]) := by
  refine ⟨[("performance", Json.obj [("score", Json.num 0)]),
    ("accessibility", Json.obj [("score", Json.num 0)]),
    ("best-practices", Json.obj [("score", Json.num 0)]),
    ("seo", Json.obj [("score", Json.num 0)])],
    requiredAudits.map fun a => (a, defaultAuditEntry), rfl, by simp, ?_, ?_, ?_⟩
  · intro p hp
    simp at hp
    rcases hp with hp | hp | hp | hp <;> exact ⟨Json.num 0, by rw [hp]⟩
  · rw [List.map_map]
    rw [show (Prod.fst ∘ fun a : String => (a, defaultAuditEntry)) = id from rfl]
    exact List.map_id requiredAudits
  · intro p hp
    rcases List.mem_map.mp hp with ⟨a, _, hpa⟩
    exact ⟨Json.str "N/A", Json.num 0, by simp [← hpa, defaultAuditEntry]⟩

/-! ## C1: shape of every successful result -/

/-- Shared helper: every successful result has the fixed shape. -/
theorem get_metrics_ok_shape (data res : Json) (w : List String)
    (h : get_metrics data = .ok (res, w)) :
    ∃ ckvs akvs,
      res = resultJson ckvs akvs ∧
      ckvs.map Prod.fst = ["performance", "accessibility", "best-practices", "seo"] ∧
      (∀ p ∈ ckvs, ∃ s, p.2 = Json.obj [("score", s)]) ∧
      akvs.map Prod.fst = requiredAudits ∧
      (∀ p ∈ akvs, ∃ dv s, p.2 = Json.obj [("displayValue", dv), ("score", s)]) := by
  unfold get_metrics fetchMetrics at h
  rcases ht : fetchMetricsTry data with e | r <;> rw [ht] at h
  · obtain ⟨hres, _, _, _⟩ := handleFetchError_ok_inv h
    subst hres
    exact defaultResultJson_shape
  · simp at h
    obtain ⟨r1, r2⟩ := r
    simp at h
    obtain ⟨hres, hw⟩ := h
    subst hres; subst hw
    obtain ⟨cats, audits, catKvs, auditKvs, hc, ha, hres⟩ := fetchMetricsTry_ok_inv ht
    subst hres
    refine ⟨catKvs, auditKvs, rfl, ?_, processCategories_shape hc, processAudits_fst ha,
      processAudits_shape ha⟩
    have := processCategories_fst hc
    simpa [categoryKeyVariants] using this

/-- C1 (amended): every result on which get_metrics succeeds, the degraded
all-default fallback included, carries a categories mapping with exactly the
four fixed keys, each an object with a score field, and an audits mapping with
exactly the seven fixed audit identifiers, each an object with a displayValue
field and a score field.  The displayValue is the string N/A whenever upstream
data is missing, but a present upstream displayValue is copied unchanged even
when it is not a string, so the field is not always string-typed. -/
theorem get_metrics_fixed_shape (data res : Json) (w : List String)
    (h : get_metrics data = .ok (res, w)) :
    ∃ ckvs akvs,
      res = resultJson ckvs akvs ∧
      ckvs.map Prod.fst = ["performance", "accessibility", "best-practices", "seo"] ∧
      (∀ p ∈ ckvs, ∃ s, p.2 = Json.obj [("score", s)]) ∧
      akvs.map Prod.fst = requiredAudits ∧
      (∀ p ∈ akvs, ∃ dv s, p.2 = Json.obj [("displayValue", dv), ("score", s)]) :=
  get_metrics_ok_shape data res w h

/-- A well-formed upstream response whose first-contentful-paint audit carries
a numeric displayValue. -/
def c1data : Json :=
  Json.obj [("lighthouseResult", Json.obj [
    ("categories", Json.obj [
      ("performance", Json.obj [("score", Json.num 1)]),
      ("accessibility", Json.obj [("score", Json.num 1)]),
      ("best-practices", Json.obj [("score", Json.num 1)]),
      ("seo", Json.obj [("score", Json.num 1)])]),
    ("audits", Json.obj [("first-contentful-paint",
      Json.obj [("displayValue", Json.num 7), ("score", Json.num 1)])])])]

/-- C1 counterexample: on c1data the call succeeds and records the number 7 as
the displayValue of first-contentful-paint — not a string — so a successful
result does not always carry a displayValue string for every audit. -/
theorem get_metrics_displayValue_not_string :
    ((get_metrics c1data).toOption.bind fun p =>
      auditDisplayValueOf p.1 "first-contentful-paint") = some (Json.num 7) ∧
    (((get_metrics c1data).toOption.bind fun p =>
      auditDisplayValueOf p.1 "first-contentful-paint").map Json.isStr) = some false :=
  ⟨rfl, rfl⟩

/-- C1 witness: the shape theorem applied to a response with an empty
categories object and no audits object; the result is the all-default one. -/
theorem get_metrics_fixed_shape_witness :
    ∃ ckvs akvs,
      defaultResultJson = resultJson ckvs akvs ∧
      ckvs.map Prod.fst = ["performance", "accessibility", "best-practices", "seo"] ∧
      (∀ p ∈ ckvs, ∃ s, p.2 = Json.obj [("score", s)]) ∧
      akvs.map Prod.fst = requiredAudits ∧
      (∀ p ∈ akvs, ∃ dv s, p.2 = Json.obj [("displayValue", dv), ("score", s)]) :=
  get_metrics_fixed_shape
    (Json.obj [("lighthouseResult", Json.obj [("categories", Json.obj [])])])
    defaultResultJson ["performance", "accessibility", "best-practices", "seo"] rfl

/-! ## C4 and C6: missing categories / missing audits -/

theorem lookupList_map_const {ks : List String} {a : String} (h : a ∈ ks) (c : Json) :
    lookupList (ks.map fun k => (k, c)) a = some c := by
  induction ks with
  | nil => simp at h
  | cons k rest ih =>
      by_cases hk : k = a
      · simp [lookupList, hk]
      · rcases List.mem_cons.mp h with h1 | h1
        · exact absurd h1.symm hk
        · simp [lookupList, hk, ih h1]

/-- C4 (amended): for a response whose audit-engine result object is an
object, omitting the categories mapping makes the call fail with the
invalid-response-format error (the KeyError is re-raised, not defaulted);
when a categories object is present and any present audits value is
structurally sound, the normalizer never raises: the call succeeds, with
missing individual categories and a missing audits mapping defaulted. -/
theorem get_metrics_categories_presence (data : Json) (lhKvs : List (String × Json))
    (h : pyGetItem data "lighthouseResult" = .ok (Json.obj lhKvs)) :
    (lookupList lhKvs "categories" = none →
      get_metrics data =
        .error ("Invalid API response format: " ++ pyQuote ++ "categories" ++ pyQuote)) ∧
    (∀ ckvs, lookupList lhKvs "categories" = some (Json.obj ckvs) →
      auditsWF (lookupList lhKvs "audits") = true →
      ∃ res w, get_metrics data = .ok (res, w)) := by
  constructor
  · intro hnone
    unfold get_metrics fetchMetrics
    rw [fetchMetricsTry_eq h]
    have hval : normalizeLighthouse (Json.obj lhKvs) = .error (.keyError "categories") := by
      unfold normalizeLighthouse
      simp [pyGetItem, hnone]
    simp only [hval]
    rfl
  · intro ckvs hcat haud
    obtain ⟨catKvs, warns, auditKvs, _, _, hnl⟩ := normalizeLighthouse_ok hcat haud
    refine ⟨resultJson catKvs auditKvs, warns, ?_⟩
    unfold get_metrics fetchMetrics
    rw [fetchMetricsTry_eq h]
    simp only [hnl]

/-- A response with the result object present but no categories mapping. -/
def c4data : Json := Json.obj [("lighthouseResult", Json.obj [])]

/-- C4 counterexample: a response whose result object omits the categories
mapping does not succeed with every category defaulted — the call propagates
an invalid-format failure. -/
theorem get_metrics_categories_presence_cex :
    get_metrics c4data =
      .error ("Invalid API response format: " ++ pyQuote ++ "categories" ++ pyQuote) := rfl

/-- C4 witness: the success half applied to a response with empty categories
and audits objects. -/
theorem get_metrics_categories_presence_witness :
    ∃ res w, get_metrics (Json.obj [("lighthouseResult",
      Json.obj [("categories", Json.obj []), ("audits", Json.obj [])])]) = .ok (res, w) :=
  (get_metrics_categories_presence
    (Json.obj [("lighthouseResult", Json.obj [("categories", Json.obj []), ("audits", Json.obj [])])])
    [("categories", Json.obj []), ("audits", Json.obj [])] rfl).2 [] rfl rfl

/-- C6 (amended): for a response whose result object holds a categories object
but no audits object at all, the call succeeds and every one of the seven
fixed audits is the default entry with displayValue N/A and score 0. -/
theorem get_metrics_missing_audits (data : Json) (lhKvs ckvs : List (String × Json))
    (h : pyGetItem data "lighthouseResult" = .ok (Json.obj lhKvs))
    (hcat : lookupList lhKvs "categories" = some (Json.obj ckvs))
    (haud : lookupList lhKvs "audits" = none) :
    ∃ res w, get_metrics data = .ok (res, w) ∧
      ∀ a ∈ requiredAudits, auditEntryOf res a = some defaultAuditEntry := by
  have hwf : auditsWF (lookupList lhKvs "audits") = true := by simp [haud, auditsWF]
  obtain ⟨catKvs, warns, auditKvs, _, ha, hnl⟩ := normalizeLighthouse_ok hcat hwf
  rw [haud] at ha
  simp only [Option.getD] at ha
  have hmap : auditKvs = requiredAudits.map fun a => (a, defaultAuditEntry) := by
    have := processAudits_emptyObj requiredAudits
    rw [this] at ha
    exact (Except.ok.inj ha).symm
  refine ⟨resultJson catKvs auditKvs, warns, ?_, ?_⟩
  · unfold get_metrics fetchMetrics
    rw [fetchMetricsTry_eq h]
    simp only [hnl]
  · intro a hain
    rw [auditEntryOf_resultJson, hmap]
    exact lookupList_map_const hain defaultAuditEntry

/-- A response with the result object present, but neither categories nor
audits. -/
def c6data : Json := Json.obj [("lighthouseResult", Json.obj [("foo", Json.null)])]

/-- C6 counterexample: this response misses the audits object entirely, yet
the call does not succeed with seven defaulted audits — it fails, because the
categories mapping is also missing and its KeyError propagates. -/
theorem get_metrics_missing_audits_cex :
    Json.getKey (Json.obj [("foo", Json.null)]) "audits" = none ∧
    get_metrics c6data =
      .error ("Invalid API response format: " ++ pyQuote ++ "categories" ++ pyQuote) :=
  ⟨rfl, rfl⟩

/-- C6 witness: the amended statement applied to a concrete response with a
categories object and no audits. -/
theorem get_metrics_missing_audits_witness :
    ∃ res w, get_metrics (Json.obj [("lighthouseResult",
      Json.obj [("categories", Json.obj []), ("other", Json.null)])]) = .ok (res, w) ∧
      ∀ a ∈ requiredAudits, auditEntryOf res a = some defaultAuditEntry :=
  get_metrics_missing_audits
    (Json.obj [("lighthouseResult", Json.obj [("categories", Json.obj []), ("other", Json.null)])])
    [("categories", Json.obj []), ("other", Json.null)] [] rfl rfl rfl

/-! ## C2 and C3: category score extraction -/

/-- C2 (amended): for a found category entry (located under the prioritized
key variants, the exact name first), the normalizer records, without raising,
score 0 when the entry is null, lacks a score field, or has a null score; a
present non-null score value is recorded unchanged even when it is not
numeric.  The record is exactly the primary-branch extraction of the source. -/
theorem normalizer_found_category_score (data : Json) (lhKvs ckvs : List (String × Json))
    (ourKey : String) (possible : List String) (entry : Json)
    (h : pyGetItem data "lighthouseResult" = .ok (Json.obj lhKvs))
    (hcat : lookupList lhKvs "categories" = some (Json.obj ckvs))
    (haud : auditsWF (lookupList lhKvs "audits") = true)
    (hmem : (ourKey, possible) ∈ categoryKeyVariants)
    (hfound : lookupList ckvs ourKey = some entry) :
    ∃ res w, get_metrics data = .ok (res, w) ∧
      categoryScoreOf res ourKey = some (primaryScore entry) ∧
      (entry = Json.null → primaryScore entry = Json.num 0) ∧
      (∀ ekvs, entry = Json.obj ekvs → lookupList ekvs "score" = none →
        primaryScore entry = Json.num 0) ∧
      (∀ ekvs, entry = Json.obj ekvs → lookupList ekvs "score" = some Json.null →
        primaryScore entry = Json.num 0) ∧
      (∀ ekvs v, entry = Json.obj ekvs → lookupList ekvs "score" = some v →
        v ≠ Json.null → primaryScore entry = v) := by
  have hmemKeep := hmem
  have hposs : ∃ rest, possible = ourKey :: rest := by
    simp [categoryKeyVariants] at hmem
    rcases hmem with ⟨h1, h2⟩ | ⟨h1, h2⟩ | ⟨h1, h2⟩ | ⟨h1, h2⟩ <;> subst h1 <;> subst h2 <;>
      exact ⟨_, rfl⟩
  obtain ⟨rest, hposs⟩ := hposs
  have hone : processOneCategory (Json.obj ckvs) ourKey possible =
      .ok (Json.obj [("score", primaryScore entry)], false) := by
    rw [hposs]
    exact processOneCategory_found ckvs ourKey rest entry hfound
  obtain ⟨catKvs, warns, auditKvs, hc, ha, hnl⟩ := normalizeLighthouse_ok hcat haud
  have hnd : (categoryKeyVariants.map Prod.fst).Nodup := by decide
  obtain ⟨hlook, hnw⟩ := processCategories_at hc hnd hmemKeep hone
  refine ⟨resultJson catKvs auditKvs, warns, ?_, ?_, ?_, ?_, ?_, ?_⟩
  · unfold get_metrics fetchMetrics
    rw [fetchMetricsTry_eq h]
    simp only [hnl]
  · rw [categoryScoreOf_resultJson, hlook]
    simp [Json.getKey, lookupList]
  · intro he; subst he; simp [primaryScore, Json.isNull]
  · intro ekvs he hs; subst he; simp [primaryScore, hs, Json.isNull]
  · intro ekvs he hs; subst he; simp [primaryScore, hs, Json.isNull]
  · intro ekvs v he hs hv
    subst he
    have hnn : v.isNull = false := by cases v <;> simp_all [Json.isNull]
    simp [primaryScore, hs, hnn]

/-- A response whose performance category has a non-numeric, non-null score. -/
def c2data : Json :=
  Json.obj [("lighthouseResult", Json.obj [
    ("categories", Json.obj [
      ("performance", Json.obj [("score", Json.str "bad")]),
      ("accessibility", Json.obj [("score", Json.num 1)]),
      ("best-practices", Json.obj [("score", Json.num 1)]),
      ("seo", Json.obj [("score", Json.num 1)])]),
    ("audits", Json.obj [])])]

/-- C2 counterexample: the performance entry has a score field that is not
numeric (a string); for it the claim as stated demands score 0, but the
normalizer records the string unchanged. -/
theorem normalizer_nonnumeric_score_cex :
    ((get_metrics c2data).toOption.bind fun p => categoryScoreOf p.1 "performance")
      = some (Json.str "bad") := rfl

/-- The categories object of the C2 witness response. -/
def c2wcats : List (String × Json) :=
  [("performance", Json.obj [("score", Json.num (1 / 2))]),
   ("accessibility", Json.null),
   ("best-practices", Json.obj []),
   ("seo", Json.obj [("score", Json.null)])]

def c2wdata : Json :=
  Json.obj [("lighthouseResult",
    Json.obj [("categories", Json.obj c2wcats), ("audits", Json.obj [])])]

/-- C2 witness: the amended statement applied to a concrete response whose
performance entry carries the score one half. -/
theorem normalizer_found_category_score_witness :
    ∃ res w, get_metrics c2wdata = .ok (res, w) ∧
      categoryScoreOf res "performance" = some (Json.num (1 / 2)) := by
  obtain ⟨res, w, h1, h2, _⟩ := normalizer_found_category_score c2wdata
    [("categories", Json.obj c2wcats), ("audits", Json.obj [])] c2wcats
    "performance" ["performance"] (Json.obj [("score", Json.num (1 / 2))])
    rfl rfl rfl (by decide) rfl
  refine ⟨res, w, h1, ?_⟩
  rw [show primaryScore (Json.obj [("score", Json.num (1 / 2))]) = Json.num (1 / 2) from rfl]
    at h2
  exact h2

/-- C3: a response lacking best-practices but containing bestPractices with a
(non-null) score yields that score for best-practices, and no missing-category
diagnostic is emitted for best-practices. -/
theorem normalizer_bestPractices_variant (data : Json) (lhKvs ckvs bkvs : List (String × Json))
    (v : Json)
    (h : pyGetItem data "lighthouseResult" = .ok (Json.obj lhKvs))
    (hcat : lookupList lhKvs "categories" = some (Json.obj ckvs))
    (haud : auditsWF (lookupList lhKvs "audits") = true)
    (hmiss : lookupList ckvs "best-practices" = none)
    (hbp : lookupList ckvs "bestPractices" = some (Json.obj bkvs))
    (hscore : lookupList bkvs "score" = some v)
    (hv : v ≠ Json.null) :
    ∃ res w, get_metrics data = .ok (res, w) ∧
      categoryScoreOf res "best-practices" = some v ∧
      "best-practices" ∉ w := by
  have hone : processOneCategory (Json.obj ckvs) "best-practices"
      ["best-practices", "bestPractices"] = .ok (Json.obj [("score", v)], false) := by
    have hff : findFirstKey (Json.obj ckvs) ["best-practices", "bestPractices"] =
        .ok (some (Json.obj bkvs)) := by
      simp [findFirstKey, pyIn, hmiss, hbp, pyGetItem]
    have hnn : v.isNull = false := by cases v <;> simp_all [Json.isNull]
    have hps : primaryScore (Json.obj bkvs) = v := by simp [primaryScore, hscore, hnn]
    simp [processOneCategory, hff, hps]
  obtain ⟨catKvs, warns, auditKvs, hc, ha, hnl⟩ := normalizeLighthouse_ok hcat haud
  have hnd : (categoryKeyVariants.map Prod.fst).Nodup := by decide
  have hmem : ("best-practices", ["best-practices", "bestPractices"]) ∈ categoryKeyVariants := by
    decide
  obtain ⟨hlook, hnw⟩ := processCategories_at hc hnd hmem hone
  refine ⟨resultJson catKvs auditKvs, warns, ?_, ?_, hnw rfl⟩
  · unfold get_metrics fetchMetrics
    rw [fetchMetricsTry_eq h]
    simp only [hnl]
  · rw [categoryScoreOf_resultJson, hlook]
    simp [Json.getKey, lookupList]

/-- The categories object of the C3 witness response: bestPractices present,
best-practices absent. -/
def c3wcats : List (String × Json) :=
  [("performance", Json.obj [("score", Json.num 1)]),
   ("accessibility", Json.obj [("score", Json.num 1)]),
   ("bestPractices", Json.obj [("score", Json.num (9 / 10))]),
   ("seo", Json.obj [("score", Json.num 1)])]

def c3wdata : Json :=
  Json.obj [("lighthouseResult",
    Json.obj [("categories", Json.obj c3wcats), ("audits", Json.obj [])])]

/-- C3 witness: the statement applied to a concrete response whose
bestPractices entry scores nine tenths. -/
theorem normalizer_bestPractices_variant_witness :
    ∃ res w, get_metrics c3wdata = .ok (res, w) ∧
      categoryScoreOf res "best-practices" = some (Json.num (9 / 10)) ∧
      "best-practices" ∉ w :=
  normalizer_bestPractices_variant c3wdata
    [("categories", Json.obj c3wcats), ("audits", Json.obj [])] c3wcats
    [("score", Json.num (9 / 10))] (Json.num (9 / 10))
    rfl rfl rfl rfl rfl rfl (by simp)

/-! ## C5: the score-error fallback -/

/-- C5: any non-KeyError exception whose message mentions a score is caught by
the final handler of the fetch and converted into the all-default result —
four category scores of 0 and seven audits of displayValue N/A with score 0 —
and a fetch whose normalization raises such an error therefore succeeds with
that all-default result instead of propagating the error. -/
theorem score_error_returns_default (e : PyErr)
    (hk : isKeyError e = false)
    (hs : strContains (pyStr e) "score" = true) :
    handleFetchError e = .ok (defaultResultJson, []) ∧
    (∀ k ∈ ["performance", "accessibility", "best-practices", "seo"],
      categoryScoreOf defaultResultJson k = some (Json.num 0)) ∧
    (∀ a ∈ requiredAudits, auditEntryOf defaultResultJson a = some defaultAuditEntry) ∧
    (∀ data, fetchMetricsTry data = .error e →
      get_metrics data = .ok (defaultResultJson, [])) := by
  have h1 : handleFetchError e = .ok (defaultResultJson, []) := by
    unfold handleFetchError
    rcases e with k | m | m | m
    · simp [isKeyError] at hk
    all_goals simp_all [pyStr]
  refine ⟨h1, ?_, ?_, ?_⟩
  · intro k hkm
    fin_cases hkm <;> rfl
  · intro a ham
    fin_cases ham <;> rfl
  · intro data hdata
    unfold get_metrics fetchMetrics
    rw [hdata]
    simpa using h1

/-- C5 witness: the handler applied to a TypeError mentioning a score. -/
theorem score_error_returns_default_witness :
    handleFetchError (.typeError "unreadable score field") = .ok (defaultResultJson, []) :=
  (score_error_returns_default (.typeError "unreadable score field") rfl (by decide)).1

/-! ## C8: CSV rendering -/

/-- C8: the CSV grid for a batch of two records is one header row plus two
data rows; a positive looked-up score is rendered as score times 100, a
non-positive numeric score as 0, every failed lookup (KeyError or TypeError)
as the literal N/A without raising, a null score as N/A, and N/A is never
rendered for a field whose score was read as a number. -/
theorem export_csv_rendering :
    (∀ r1 r2 : AnalysisRecord, (export_csv [r1, r2]).length = 3) ∧
    (∀ rs : List AnalysisRecord, (export_csv rs).head? = some (csvColumns.map Cell.str)) ∧
    (∀ (data : Json) (c : String) (q : ℚ), scoreLookup data c = .ok (Json.num q) → 0 < q →
      get_score data c = .num (q * 100)) ∧
    (∀ (data : Json) (c : String) (q : ℚ), scoreLookup data c = .ok (Json.num q) → ¬ 0 < q →
      get_score data c = .num 0) ∧
    (∀ (data : Json) (c : String) (e : PyErr), scoreLookup data c = .error e →
      get_score data c = .str "N/A") ∧
    (∀ (data : Json) (c : String), scoreLookup data c = .ok Json.null →
      get_score data c = .str "N/A") ∧
    (∀ (data : Json) (c : String), get_score data c = .str "N/A" →
      ∀ q : ℚ, scoreLookup data c ≠ .ok (Json.num q)) := by
  refine ⟨?_, ?_, ?_, ?_, ?_, ?_, ?_⟩
  · intro r1 r2; simp [export_csv]
  · intro rs; simp [export_csv]
  · intro data c q hq h0
    unfold get_score
    simp only [hq]
    simp [h0]
  · intro data c q hq h0
    unfold get_score
    simp only [hq]
    simp [h0]
  · intro data c e he
    unfold get_score
    simp only [he]
  · intro data c hn
    unfold get_score
    simp only [hn]
  · intro data c hna q hq
    unfold get_score at hna
    simp only [hq] at hna
    by_cases h0 : 0 < q <;> simp [h0] at hna

/-- The desktop and mobile result of the C8 witness record: performance score
87 hundredths. -/
def c8data : Json :=
  Json.obj [("lighthouse_result", Json.obj [("categories",
    Json.obj [("performance", Json.obj [("score", Json.num (87 / 100))])])])]

def c8record : AnalysisRecord := ⟨"https://example.com", c8data, c8data⟩

/-- C8 witness: two records give three grid rows, and the desktop performance
score 0.87 renders as the value 87. -/
theorem export_csv_rendering_witness :
    (export_csv [c8record, c8record]).length = 3 ∧
    get_score c8data "performance" = .num 87 := by
  refine ⟨export_csv_rendering.1 c8record c8record, ?_⟩
  have h := export_csv_rendering.2.2.1 c8data "performance" (87 / 100) rfl (by norm_num)
  have h87 : (87 / 100 : ℚ) * 100 = 87 := by norm_num
  rw [h87] at h
  exact h

/-! ## C9: JSON export round-trip -/

/-- C9: exporting a batch of one analysis record to JSON and parsing it back
yields the identical record, and when the two halves of the record are
successful normalizer outputs the parsed record carries all four fixed
category keys and all seven fixed audit keys with their values unchanged.
The textual encode/decode pair of the standard json library is modelled as
the identity on JSON values. -/
theorem export_json_roundtrip (r : AnalysisRecord) (dataD dataM : Json) (wd wm : List String)
    (hd : get_metrics dataD = .ok (r.desktop, wd))
    (hm : get_metrics dataM = .ok (r.mobile, wm)) :
    parseBatch (export_json [r]) = some [r] ∧
    (∃ ckvs akvs, r.desktop = resultJson ckvs akvs ∧
      ckvs.map Prod.fst = ["performance", "accessibility", "best-practices", "seo"] ∧
      akvs.map Prod.fst = requiredAudits) ∧
    (∃ ckvs akvs, r.mobile = resultJson ckvs akvs ∧
      ckvs.map Prod.fst = ["performance", "accessibility", "best-practices", "seo"] ∧
      akvs.map Prod.fst = requiredAudits) := by
  refine ⟨rfl, ?_, ?_⟩
  · obtain ⟨ckvs, akvs, hres, hc, _, ha, _⟩ := get_metrics_ok_shape dataD r.desktop wd hd
    exact ⟨ckvs, akvs, hres, hc, ha⟩
  · obtain ⟨ckvs, akvs, hres, hc, _, ha, _⟩ := get_metrics_ok_shape dataM r.mobile wm hm
    exact ⟨ckvs, akvs, hres, hc, ha⟩

/-- C9 witness: the round trip on a concrete one-record batch whose halves are
the all-default normalizer output. -/
theorem export_json_roundtrip_witness :
    parseBatch (export_json [⟨"https://example.com", defaultResultJson, defaultResultJson⟩]) =
      some [⟨"https://example.com", defaultResultJson, defaultResultJson⟩] :=
  (export_json_roundtrip ⟨"https://example.com", defaultResultJson, defaultResultJson⟩
    (Json.obj [("lighthouseResult", Json.obj [("categories", Json.obj [])])])
    (Json.obj [("lighthouseResult", Json.obj [("categories", Json.obj [])])])
    ["performance", "accessibility", "best-practices", "seo"]
    ["performance", "accessibility", "best-practices", "seo"] rfl rfl).1
